import Mathlib

/-!
Shallow embedding of `src/rules.ts` (the rule-validation engine of
barisere/flw-rule-validator) and proofs about it.

Modelling conventions:
* JavaScript values reachable from `validate`'s `unknown` argument are modelled
  by the inductive type `Js`.  JSON-decoded data contains no functions, symbols
  or BigInts, so those are omitted.  Numbers are modelled as integers (`Int`);
  none of the verified claims involves fractional values, and the one numeric
  parse whose result flows anywhere (`Number.parseInt` at rules.ts:109) feeds a
  value that is immediately overwritten (see `validate` below).
* `undefined` is a first-class constructor, because the engine's control flow
  branches on `=== undefined` (rules.ts:114).
* Property access models JavaScript own-property semantics for JSON data:
  object keys, array indices and `length`, string indices and `length`.
  Function-valued prototype members (e.g. `toString`) are outside the value
  domain and hence not modelled.
* Strict equality `===` on two distinct container values is reference equality;
  values resolved from the `data` subtree and values taken from the `rule`
  subtree of a JSON-decoded request are never aliased, so container/container
  comparisons are modelled as `false`.
* JavaScript exceptions (the engine can throw: see `C2` below) are modelled
  with `Except JsError`.
-/

/-- JavaScript values as seen by `validate` (JSON data plus `undefined`). -/
inductive Js where
  | undefined
  | null
  | bool (b : Bool)
  | num (n : Int)
  | str (s : String)
  | arr (elems : List Js)
  | obj (fields : List (String × Js))
deriving Repr

/-- Thrown JavaScript exceptions (all relevant ones are TypeErrors). -/
inductive JsError where
  | typeError (msg : String)
deriving Repr, DecidableEq

namespace Js

/-- Test for the `undefined` value (the `=== undefined` check at rules.ts:114,
and Joi's notion of an absent key). -/
def isUndefined : Js → Bool
  | .undefined => true
  | _ => false

/-- Test for strings (Joi.string base check). -/
def isStr : Js → Bool
  | .str _ => true
  | _ => false

/-- The `typeof data === "string" || Array.isArray(data)` test
(rules.ts:104). -/
def isStringOrArray : Js → Bool
  | .str _ => true
  | .arr _ => true
  | _ => false

end Js

/-- Own-property lookup in an object's field list; absent keys read as
`undefined`, exactly as JS property access does. -/
def getOwn : List (String × Js) → String → Js
  | [], _ => .undefined
  | (k, v) :: rest, key => if k = key then v else getOwn rest key

/-- Decimal digits to a natural number. -/
def digitsToNat (cs : List Char) : Nat :=
  cs.foldl (fun a c => a * 10 + (c.toNat - 48)) 0

/-- Whitespace trim on a character list (the semantics of
`String.prototype.trim`). -/
def trimList (cs : List Char) : List Char :=
  ((cs.dropWhile Char.isWhitespace).reverse.dropWhile Char.isWhitespace).reverse

/-- Whitespace trim on strings, used by the segment filter of `indexOn`
(rules.ts:164). -/
def jsTrim (s : String) : String :=
  String.mk (trimList s.data)

/-- Canonical array-index keys: `arr["1"]` hits index 1 but `arr["01"]` does
not, because JS array elements live under canonical numeric strings. -/
def toArrayIndex (key : String) : Option Nat :=
  match key.data with
  | [] => none
  | ['0'] => some 0
  | c :: rest =>
      if c.isDigit && c != '0' && rest.all Char.isDigit then
        some (digitsToNat (c :: rest))
      else none

/-- Property access `v[key]` (string key) on a non-nullish value `v`:
own properties of JSON data, plus `length`/indices of arrays and strings. -/
def getMember (v : Js) (key : String) : Js :=
  match v with
  | .obj fields => getOwn fields key
  | .arr xs =>
      if key = "length" then .num xs.length
      else match toArrayIndex key with
        | some i => (xs.getD i .undefined)
        | none => .undefined
  | .str s =>
      if key = "length" then .num s.length
      else match toArrayIndex key with
        | some i =>
            match s.data.get? i with
            | some c => .str (String.singleton c)
            | none => .undefined
        | none => .undefined
  | _ => .undefined

/-- Optional-chained access `v?.[key]`: nullish receivers short-circuit to
`undefined` (used by `indexOn`, rules.ts:166). -/
def optMember (v : Js) (key : String) : Js :=
  match v with
  | .null => .undefined
  | .undefined => .undefined
  | _ => getMember v key

/-- Plain property access `v.key` / `v[key]`: throws a TypeError on nullish
receivers (used for `rule.field`, `rule.condition`, `rule.condition_value` and
the destructuring at rules.ts:101). -/
def propAccess (v : Js) (key : String) : Except JsError Js :=
  match v with
  | .null => .error (.typeError "cannot read properties of null")
  | .undefined => .error (.typeError "cannot read properties of undefined")
  | _ => .ok (getMember v key)

/-- Indexing `v?.[i]` with a numeric index (the positional branch of
`containsValidator`, rules.ts:28). -/
def optIndexNum (v : Js) (i : Int) : Js :=
  match v with
  | .null => .undefined
  | .undefined => .undefined
  | _ => getMember v (toString i)

mutual
/-- JavaScript ToString on our value domain: primitives print as JS prints
them, arrays join their elements with `,` (nullish elements becoming empty),
plain objects print as `[object Object]`. -/
def jsToString : Js → String
  | .undefined => "undefined"
  | .null => "null"
  | .bool true => "true"
  | .bool false => "false"
  | .num n => toString n
  | .str s => s
  | .arr xs => String.intercalate "," (jsToStringElems xs)
  | .obj _ => "[object Object]"

/-- Element conversion used by `Array.prototype.join`. -/
def jsToStringElems : List Js → List String
  | [] => []
  | x :: xs =>
      (match x with
       | .null => ""
       | .undefined => ""
       | x => jsToString x) :: jsToStringElems xs
end

/-- Substring test, the semantics of `String.prototype.includes`. -/
def strIncludes (s pat : String) : Bool :=
  s.data.tails.any fun suf => pat.data.isPrefixOf suf

/-- Strict equality `===`: no coercion; primitives by value; container
operands compare by reference, and the two operands always come from disjoint
subtrees of a JSON-decoded request, so that case is `false`. -/
def strictEq : Js → Js → Bool
  | .undefined, .undefined => true
  | .null, .null => true
  | .bool a, .bool b => a == b
  | .num a, .num b => a == b
  | .str a, .str b => a == b
  | _, _ => false

/-- ToPrimitive with number hint: containers go through their `toString`;
primitives are unchanged. -/
def toPrimitive (v : Js) : Js :=
  match v with
  | .arr xs => .str (jsToString (.arr xs))
  | .obj fs => .str (jsToString (.obj fs))
  | v => v

/-- String-to-number coercion (`Number(s)`), restricted to the integer
literals our value domain can hold: empty/whitespace is 0, signed decimal
digit runs are their value, anything else is NaN (`none`).  Hex, float and
exponent literals are not modelled; no verified claim observes the numeric
value of a coerced string. -/
def stringToNumber (s : String) : Option Int :=
  match trimList s.data with
  | [] => some 0
  | '-' :: rest =>
      if !rest.isEmpty && rest.all Char.isDigit then some (-(digitsToNat rest : Int)) else none
  | '+' :: rest =>
      if !rest.isEmpty && rest.all Char.isDigit then some (digitsToNat rest : Int) else none
  | cs =>
      if cs.all Char.isDigit then some (digitsToNat cs : Int) else none

/-- ToNumber on our value domain; `none` is NaN. -/
def toNumber (v : Js) : Option Int :=
  match toPrimitive v with
  | .undefined => none
  | .null => some 0
  | .bool b => some (if b then 1 else 0)
  | .num n => some n
  | .str s => stringToNumber s
  | _ => none

/-- Abstract relational comparison `a < b`; `none` means an operand was NaN
(the comparison operators then yield `false`). -/
def jsLt (a b : Js) : Option Bool :=
  match toPrimitive a, toPrimitive b with
  | .str sa, .str sb => some (decide (sa < sb))
  | pa, pb =>
      match toNumber pa, toNumber pb with
      | some x, some y => some (decide (x < y))
      | _, _ => none

/-- The `gt` predicate `(value, other) => value > other` (rules.ts:38). -/
def jsGtBool (value other : Js) : Bool :=
  (jsLt other value).getD false

/-- The `gte` predicate `(value, other) => value >= other` (rules.ts:39). -/
def jsGeBool (value other : Js) : Bool :=
  match jsLt value other with
  | some r => !r
  | none => false

/-- Hexadecimal digit value. -/
def hexVal (c : Char) : Option Nat :=
  if c.isDigit then some (c.toNat - 48)
  else if 'a' ≤ c && c ≤ 'f' then some (c.toNat - 87)
  else if 'A' ≤ c && c ≤ 'F' then some (c.toNat - 55)
  else none

/-- Hexadecimal digit test. -/
def isHexDigit (c : Char) : Bool := (hexVal c).isSome

/-- `Number.parseInt` on a string (rules.ts:109): skip leading whitespace,
optional sign, optional `0x` prefix, then the longest digit run; `none` is
NaN.  Its result is passed as the `index` of the first `containsValidator`
call, whose boolean is immediately overwritten (rules.ts:120), so the parsed
value is unobservable in `validate`'s outcome. -/
def parseIntJs (s : String) : Option Int :=
  let cs := s.data.dropWhile fun c => c.isWhitespace
  let signed : Bool × List Char :=
    match cs with
    | '-' :: r => (true, r)
    | '+' :: r => (false, r)
    | _ => (false, cs)
  match signed.2 with
  | '0' :: 'x' :: r =>
      let ds := r.takeWhile isHexDigit
      if ds.isEmpty then none
      else some ((if signed.1 then -1 else 1) *
        (ds.foldl (fun a c => a * 16 + (hexVal c).getD 0) 0 : Nat))
  | '0' :: 'X' :: r =>
      let ds := r.takeWhile isHexDigit
      if ds.isEmpty then none
      else some ((if signed.1 then -1 else 1) *
        (ds.foldl (fun a c => a * 16 + (hexVal c).getD 0) 0 : Nat))
  | rest =>
      let ds := rest.takeWhile Char.isDigit
      if ds.isEmpty then none
      else some ((if signed.1 then -1 else 1) * (digitsToNat ds : Int))

/-- `containsValidator` (rules.ts:16-31).  The guard
`index != null && !Number.isNaN(index)` is modelled by `Option Int`: `none`
covers both an absent third argument (the call at rules.ts:120) and a NaN
parse.  With an index it is positional `value?.[index] === element`; without,
`value.includes(element)`, which throws a TypeError when `value` is not a
string or array. -/
def containsValidator (value element : Js) (index : Option Int) : Except JsError Bool :=
  match index with
  | some i => .ok (strictEq (optIndexNum value i) element)
  | none =>
      match value with
      | .str s => .ok (strIncludes s (jsToString element))
      | .arr xs => .ok (xs.any fun x => strictEq x element)
      | _ => .error (.typeError "value.includes is not a function")

/-- Lookup in the `conditions` record by the raw `rule.condition` value
followed by the call (rules.ts:33-41, call sites 106 and 120).  An
unregistered key makes the callee `undefined` and the call throws; the four
comparison predicates ignore the extra index argument, as binary JS functions
do. -/
def conditionsApply (cond value other : Js) (index : Option Int) : Except JsError Bool :=
  match cond with
  | .str "eq" => .ok (strictEq value other)
  | .str "neq" => .ok (!strictEq value other)
  | .str "gt" => .ok (jsGtBool value other)
  | .str "gte" => .ok (jsGeBool value other)
  | .str "contains" => containsValidator value other index
  | _ => .error (.typeError "conditions lookup is not a function")

/-- JSON whitespace characters. -/
def isJsonWs (c : Char) : Bool :=
  c == ' ' || c == '\t' || c == '\n' || c == '\r'

/-- Value of a four-digit hexadecimal escape. -/
def decodeHex4 (a b c d : Char) : Option Nat :=
  match hexVal a, hexVal b, hexVal c, hexVal d with
  | some x, some y, some z, some w => some (((x * 16 + y) * 16 + z) * 16 + w)
  | _, _, _, _ => none

/-- Body of a JSON string after the opening quote, as `JSON.parse` reads it:
the single-character escapes, `\u` escapes (a surrogate pair combining into
one scalar), and rejection of raw control characters.  An unpaired surrogate
escape denotes a string outside the embedding's value domain (Lean strings
hold only unicode scalars) and fails to parse. -/
def parseJsonStringBody : List Char → Option (List Char × List Char)
  | [] => none
  | '"' :: rest => some ([], rest)
  | '\\' :: 'u' :: a :: b :: c :: d :: rest =>
      (match decodeHex4 a b c d with
       | some n =>
          if n < 0xD800 then
            (match parseJsonStringBody rest with
             | some (cs, r) => some (Char.ofNat n :: cs, r)
             | none => none)
          else if n ≤ 0xDBFF then
            (match rest with
             | '\\' :: 'u' :: e :: f :: g :: h :: rest2 =>
                (match decodeHex4 e f g h with
                 | some m =>
                    if 0xDC00 ≤ m ∧ m ≤ 0xDFFF then
                      (match parseJsonStringBody rest2 with
                       | some (cs, r) =>
                          some (Char.ofNat (0x10000 + (n - 0xD800) * 0x400 + (m - 0xDC00)) :: cs, r)
                       | none => none)
                    else none
                 | none => none)
             | _ => none)
          else if n ≤ 0xDFFF then none
          else
            (match parseJsonStringBody rest with
             | some (cs, r) => some (Char.ofNat n :: cs, r)
             | none => none)
       | none => none)
  | '\\' :: c :: rest =>
      (match (match c with
              | '"' => some '"'
              | '\\' => some '\\'
              | '/' => some '/'
              | 'n' => some '\n'
              | 't' => some '\t'
              | 'r' => some '\r'
              | 'b' => some (Char.ofNat 8)
              | 'f' => some (Char.ofNat 12)
              | _ => none) with
       | some e =>
          (match parseJsonStringBody rest with
           | some (cs, r) => some (e :: cs, r)
           | none => none)
       | none => none)
  | c :: rest =>
      if c.toNat < 32 then none
      else
        (match parseJsonStringBody rest with
         | some (cs, r) => some (c :: cs, r)
         | none => none)

/-- Exponent tail of a JSON number: optional sign, then at least one digit. -/
def parseJsonExponent (r : List Char) : Option (List Char) :=
  let body : List Char :=
    match r with
    | '+' :: r2 => r2
    | '-' :: r2 => r2
    | _ => r
  if (body.takeWhile Char.isDigit).isEmpty then none
  else some (body.dropWhile Char.isDigit)

/-- JSON number literal per the JSON grammar: optional minus, an integer part
with no leading zero, optional fraction and exponent parts.  The stored value
is the signed integer part: a coerced value only ever feeds Joi's shape
classification, because `parseRequest` returns the original request
(rules.ts:155) and the schema checks inspect constructor shapes, key strings
and string values, never a number's magnitude — so what must match
`JSON.parse` is which literals are accepted, and that matches. -/
def parseJsonNumber (cs : List Char) : Option (Js × List Char) :=
  let signed : Bool × List Char :=
    match cs with
    | '-' :: r => (true, r)
    | _ => (false, cs)
  match signed.2 with
  | [] => none
  | c :: rest =>
      if !c.isDigit then none
      else
        let intDigits : List Char :=
          if c == '0' then [c] else c :: rest.takeWhile Char.isDigit
        let afterInt : List Char :=
          if c == '0' then rest else rest.dropWhile Char.isDigit
        if c == '0' && (match afterInt with | d :: _ => d.isDigit | [] => false) then none
        else
          let fracResult : Option (List Char) :=
            match afterInt with
            | '.' :: r2 =>
                if (r2.takeWhile Char.isDigit).isEmpty then none
                else some (r2.dropWhile Char.isDigit)
            | _ => some afterInt
          match fracResult with
          | none => none
          | some afterFrac =>
              let expResult : Option (List Char) :=
                match afterFrac with
                | 'e' :: r3 => parseJsonExponent r3
                | 'E' :: r3 => parseJsonExponent r3
                | _ => some afterFrac
              match expResult with
              | none => none
              | some restFinal =>
                  some (.num ((if signed.1 then -1 else 1) * (digitsToNat intDigits : Int)),
                    restFinal)

/-- Duplicate keys in a parsed JSON object follow JS property-assignment
semantics: the first occurrence fixes the position, the last occurrence fixes
the value.  `ms` holds the already-deduplicated later members, so a
reoccurrence of `k` there carries the value that wins. -/
def upsertKey (k : String) (v : Js) (ms : List (String × Js)) : List (String × Js) :=
  match ms.filter fun kv => kv.1 == k with
  | [] => (k, v) :: ms
  | (_, v2) :: _ => (k, v2) :: (ms.filter fun kv => kv.1 != k)

mutual
/-- JSON value parser (fuel-indexed recursive descent; the top-level call
passes fuel exceeding the input length, which suffices because every recursive
call first consumes at least one character). -/
def parseJsonVal : Nat → List Char → Option (Js × List Char)
  | 0, _ => none
  | fuel + 1, cs =>
      match cs.dropWhile isJsonWs with
      | '{' :: rest =>
          (match rest.dropWhile isJsonWs with
           | '}' :: r2 => some (.obj [], r2)
           | _ =>
              match parseJsonMembers fuel rest with
              | some (ms, r2) => some (.obj ms, r2)
              | none => none)
      | '[' :: rest =>
          (match rest.dropWhile isJsonWs with
           | ']' :: r2 => some (.arr [], r2)
           | _ =>
              match parseJsonElems fuel rest with
              | some (xs, r2) => some (.arr xs, r2)
              | none => none)
      | '"' :: rest =>
          (match parseJsonStringBody rest with
           | some (cs2, r) => some (.str (String.mk cs2), r)
           | none => none)
      | 't' :: 'r' :: 'u' :: 'e' :: r => some (.bool true, r)
      | 'f' :: 'a' :: 'l' :: 's' :: 'e' :: r => some (.bool false, r)
      | 'n' :: 'u' :: 'l' :: 'l' :: r => some (.null, r)
      | other => parseJsonNumber other

/-- Members of a JSON object after the opening `{` (nonempty case). -/
def parseJsonMembers : Nat → List Char → Option (List (String × Js) × List Char)
  | 0, _ => none
  | fuel + 1, cs =>
      match cs.dropWhile isJsonWs with
      | '"' :: rest =>
          (match parseJsonStringBody rest with
           | some (kcs, r1) =>
              (match r1.dropWhile isJsonWs with
               | ':' :: r2 =>
                  (match parseJsonVal fuel r2 with
                   | some (v, r3) =>
                      (match r3.dropWhile isJsonWs with
                       | ',' :: r4 =>
                          (match parseJsonMembers fuel r4 with
                           | some (ms, r5) => some (upsertKey (String.mk kcs) v ms, r5)
                           | none => none)
                       | '}' :: r4 => some ([(String.mk kcs, v)], r4)
                       | _ => none)
                   | none => none)
               | _ => none)
           | none => none)
      | _ => none

/-- Elements of a JSON array after the opening `[` (nonempty case). -/
def parseJsonElems : Nat → List Char → Option (List Js × List Char)
  | 0, _ => none
  | fuel + 1, cs =>
      match parseJsonVal fuel cs with
      | some (v, r1) =>
          (match r1.dropWhile isJsonWs with
           | ',' :: r2 =>
              (match parseJsonElems fuel r2 with
               | some (xs, r3) => some (v :: xs, r3)
               | none => none)
           | ']' :: r2 => some ([v], r2)
           | _ => none)
      | none => none
end

/-- The semantics of `JSON.parse` over our value domain: a complete parse of
the whole string (trailing whitespace allowed). -/
def jsonParse (s : String) : Option Js :=
  match parseJsonVal (s.length + 1) s.data with
  | some (v, rest) => if (rest.dropWhile isJsonWs).isEmpty then some v else none
  | none => none

mutual
/-- Scan of @hapi/bourne: joi parses coerced strings with `Bourne.parse`,
whose default `protoAction: 'error'` throws when any object in the parsed
tree carries an own `__proto__` key (JSON.parse creates such keys as plain
own properties), abandoning the coercion. -/
def bourneSuspect : Js → Bool
  | .obj fields => bourneSuspectMembers fields
  | .arr xs => bourneSuspectElems xs
  | _ => false

/-- Member scan for `bourneSuspect`. -/
def bourneSuspectMembers : List (String × Js) → Bool
  | [] => false
  | (k, v) :: rest => k == "__proto__" || bourneSuspect v || bourneSuspectMembers rest

/-- Element scan for `bourneSuspect`. -/
def bourneSuspectElems : List Js → Bool
  | [] => false
  | v :: rest => bourneSuspect v || bourneSuspectElems rest
end

/-- Guard of Joi's object-from-string coercion: the first non-whitespace
character must be an opening brace. -/
def jsonObjGuard (s : String) : Bool :=
  match s.data.dropWhile fun c => c.isWhitespace with
  | '{' :: _ => true
  | _ => false

/-- Joi 17 coerces a string whose first non-whitespace character is `{` by
attempting a `Bourne.parse` (joi lib/types/keys.js, applied because
`validate` is called with the default `convert: true`): `JSON.parse` followed
by the `__proto__` scan, whose failure keeps the original string.  On success
the parsed object replaces the value *for validation purposes only* —
`parseRequest` returns the original request (rules.ts:155), so coercion
decides which inputs validate but never changes the values evaluated
afterwards. -/
def coerceJoiObject (v : Js) : Js :=
  match v with
  | .str s =>
      if jsonObjGuard s then
        match jsonParse s with
        | some j => if bourneSuspect j then .str s else j
        | none => .str s
      else .str s
  | v => v

/-- `EarlyAbortReason` (rules.ts:73-77). -/
inductive EarlyAbortReason where
  | invalid_schema
  | type_error
  | missing_required_field
  | missing_data_field
deriving Repr, DecidableEq

/-- `ValidationCompleted` (rules.ts:84-90).  The `field`, `field_value`,
`condition` and `condition_value` components hold the raw values the code
copies into the result object (rules.ts:121-130). -/
structure ValidationCompleted where
  error : Bool
  field : Js
  field_value : Js
  condition : Js
  condition_value : Js
deriving Repr

/-- `ValidationResult` (rules.ts:92-94): `EarlyAbort` with its message, or the
completed record. -/
inductive ValidationResult where
  | abort (reason : EarlyAbortReason) (value : String)
  | completed (value : ValidationCompleted)
deriving Repr

/-- Outcome of `parseRequest` (rules.ts:133-156).  The success branch returns
the original `req` (line 155), so no payload is needed here. -/
inductive ParseOutcome where
  | abort (reason : EarlyAbortReason) (value : String)
  | request
deriving Repr

/-- Membership of `rule.condition` in `Object.keys(conditions)`
(`Joi.valid(...)`, rules.ts:50). -/
def conditionNameCheck : Js → Bool
  | .str s => s == "eq" || s == "neq" || s == "gt" || s == "gte" || s == "contains"
  | _ => false

/-- Test for the empty string (`Joi.string()` rejects empty strings with
`string.empty`). -/
def isEmptyStr : Js → Bool
  | .str s => s == ""
  | _ => false

/-- First key of `fields` that is neither in `known` nor carries `undefined`
(Joi rejects unknown keys after validating the declared ones). -/
def firstUnknownKey (fields : List (String × Js)) (known : List String) : Option String :=
  match fields with
  | [] => none
  | (k, v) :: rest =>
      if known.contains k || v.isUndefined then firstUnknownKey rest known
      else some k

/-- Validation of `req.rule` against `ruleSchema` (rules.ts:45-61) under Joi's
abort-early key order (field, condition, condition_value, then unknown keys),
with the error already mapped through the switch of `parseRequest`
(rules.ts:146-152): nested `any.required` becomes `missing_required_field`,
everything else `type_error`, each with Joi's message for that error. -/
def validateRuleValue (rule : Js) : Option (EarlyAbortReason × String) :=
  match coerceJoiObject rule with
  | .obj fields =>
      let fv := getOwn fields "field"
      if fv.isUndefined then some (.missing_required_field, "rule.field is required")
      else if !fv.isStr then some (.type_error, "rule.field should be a string")
      else if isEmptyStr fv then
        some (.type_error, "\"rule.field\" is not allowed to be empty")
      else
        let cond := getOwn fields "condition"
        if cond.isUndefined then some (.missing_required_field, "rule.condition is required")
        else if !conditionNameCheck cond then
          some (.type_error, "rule.condition must be one of eq, neq, gt, gte, or contains")
        else
          let cv := getOwn fields "condition_value"
          if cv.isUndefined then some (.missing_required_field, "rule.condition_value is required")
          else match firstUnknownKey fields ["field", "condition", "condition_value"] with
            | some k => some (.type_error, "\"rule." ++ k ++ "\" is not allowed")
            | none => none
  | _ => some (.type_error, "rule should be an object.")

/-- Membership of `data` in `Joi.alternatives(Joi.array(), Joi.object(),
Joi.string())` (rules.ts:63); every string matches via the third alternative,
so data coercion never affects validity. -/
def validDataType : Js → Bool
  | .arr _ => true
  | .obj _ => true
  | .str _ => true
  | _ => false

/-- `parseRequest` (rules.ts:133-156): `validatorSchema.validate(req)` with
abort-early semantics, the errors mapped exactly as lines 137-152 map them.
The top-level schema is not itself `required`, so `undefined` validates and
flows to the request branch.  A top-level `object.base` error (path `""`)
becomes `invalid_schema` with the fixed message; `rule`/`data` `any.required`
errors and nested `any.required` errors become `missing_required_field` with
Joi's message; all other errors become `type_error`. -/
def parseRequest (req : Js) : ParseOutcome :=
  if req.isUndefined then .request
  else
    match coerceJoiObject req with
    | .obj fields =>
        let rule := getOwn fields "rule"
        if rule.isUndefined then .abort .missing_required_field "rule is required."
        else
          match validateRuleValue rule with
          | some (r, msg) => .abort r msg
          | none =>
              let data := getOwn fields "data"
              if data.isUndefined then .abort .missing_required_field "data is required."
              else if !validDataType data then
                .abort .type_error "data should be an array, an object, or a string."
              else
                match firstUnknownKey fields ["rule", "data"] with
                | some k => .abort .type_error ("\"" ++ k ++ "\" is not allowed")
                | none => .request
    | _ => .abort .invalid_schema "Invalid JSON payload passed."

/-- Splitting a character list on `.`, the semantics of `path.split(".")`. -/
def splitOnDot : List Char → List (List Char)
  | [] => [[]]
  | '.' :: rest => [] :: splitOnDot rest
  | c :: rest =>
      match splitOnDot rest with
      | g :: gs => (c :: g) :: gs
      | [] => [[c]]

/-- Path segments produced by `indexOn` (rules.ts:163-164): split on `.`, then
keep only segments whose trim is nonempty. -/
def pathSegments (path : String) : List String :=
  ((splitOnDot path.data).map String.mk).filter fun v => jsTrim v != ""

/-- `indexOn` (rules.ts:162-168).  A string path is split and walked with
`reduce`/`prev?.[current]`, which never throws; a non-string path is wrapped
in a singleton list and the filter's `v.trim()` then throws a TypeError. -/
def indexOn (obj : Js) (path : Js) : Except JsError Js :=
  match path with
  | .str s => .ok ((pathSegments s).foldl optMember obj)
  | _ => .error (.typeError "v.trim is not a function")

/-- `validate` (rules.ts:96-131), the public entry point.  After shape
validation the code destructures the ORIGINAL request and re-reads
`rule.field`, `rule.condition`, `rule.condition_value` without further checks;
all property reads and calls that can throw in JS are modelled in `Except`.
For string/array data the first condition evaluation (lines 106-110, with the
parsed index) is bound to `deadComp`: line 120 unconditionally re-evaluates
the condition without the index, so only `comp` reaches the result. -/
def validate (req : Js) : Except JsError ValidationResult :=
  match parseRequest req with
  | .abort r msg => .ok (.abort r msg)
  | .request => do
      let data ← propAccess req "data"
      let rule ← propAccess req "rule"
      if data.isStringOrArray then
        let condJs ← propAccess rule "condition"
        let cvJs ← propAccess rule "condition_value"
        let fJs ← propAccess rule "field"
        let _deadComp ← conditionsApply condJs data cvJs (parseIntJs (jsToString fJs))
        let comp ← conditionsApply condJs data cvJs none
        return .completed
          { error := !comp, field := fJs, field_value := data,
            condition := condJs, condition_value := cvJs }
      else
        let fJs ← propAccess rule "field"
        let dfv ← indexOn data fJs
        if dfv.isUndefined then
          return .abort .missing_data_field
            ("field " ++ jsToString fJs ++ " is missing from data.")
        else
          let condJs ← propAccess rule "condition"
          let cvJs ← propAccess rule "condition_value"
          let comp ← conditionsApply condJs dfv cvJs none
          return .completed
            { error := !comp, field := fJs, field_value := dfv,
              condition := condJs, condition_value := cvJs }

/-- Canonical well-typed request literal
`{rule: {field, condition, condition_value}, data}`, the shape of the source's
`Request` type (rules.ts:3-11), used to state claims about valid requests. -/
def mkReq (field cond : String) (cv data : Js) : Js :=
  .obj [("rule", .obj [("field", .str field), ("condition", .str cond),
                       ("condition_value", cv)]), ("data", data)]

/-- Resolution as the specification words it: walk the data by successive
member lookup along the path segments.  This is the spec-side counterpart the
code's `indexOn` is compared against. -/
def specResolve (data : Js) (segs : List String) : Js :=
  segs.foldl optMember data

@[simp] theorem jsIsUndefined_undefined : Js.isUndefined .undefined = true := rfl

@[simp] theorem jsIsUndefined_null : Js.isUndefined .null = false := rfl

@[simp] theorem jsIsUndefined_bool (b : Bool) : Js.isUndefined (.bool b) = false := rfl

@[simp] theorem jsIsUndefined_num (n : Int) : Js.isUndefined (.num n) = false := rfl

@[simp] theorem jsIsUndefined_str (s : String) : Js.isUndefined (.str s) = false := rfl

@[simp] theorem jsIsUndefined_arr (xs : List Js) : Js.isUndefined (.arr xs) = false := rfl

@[simp] theorem jsIsUndefined_obj (fs : List (String × Js)) :
    Js.isUndefined (.obj fs) = false := rfl

@[simp] theorem coerceJoiObject_obj (fs : List (String × Js)) :
    coerceJoiObject (.obj fs) = .obj fs := rfl

/-- Well-typed requests pass the shape validation: nonempty string field,
registered condition name, present condition value, and array/object/string
data. -/
theorem parseRequest_mkReq (f c : String) (cv d : Js)
    (hc : conditionNameCheck (.str c) = true) (hf : f ≠ "")
    (hcv : cv.isUndefined = false) (hd : validDataType d = true) :
    parseRequest (mkReq f c cv d) = .request := by
  have hf2 : (f == "") = false := by simp [hf]
  cases cv <;> cases d <;>
    simp_all [parseRequest, mkReq, coerceJoiObject, getOwn, validateRuleValue, Js.isUndefined,
      Js.isStr, isEmptyStr, firstUnknownKey, validDataType]

/-- Evaluation of `validate` on a well-typed request with object data whose
field resolution is defined and whose condition evaluation returns `b`: the
outcome is completed with error flag `!b`. -/
theorem validate_mkReq_object_comp (f c : String) (cv : Js) (fields : List (String × Js)) (b : Bool)
    (hc : conditionNameCheck (.str c) = true) (hf : f ≠ "") (hcv : cv.isUndefined = false)
    (hres : (specResolve (.obj fields) (pathSegments f)).isUndefined = false)
    (hcomp : conditionsApply (.str c) (specResolve (.obj fields) (pathSegments f)) cv none = .ok b) :
    validate (mkReq f c cv (.obj fields)) =
      .ok (.completed ⟨!b, .str f, specResolve (.obj fields) (pathSegments f), .str c, cv⟩) := by
  have hp := parseRequest_mkReq f c cv (.obj fields) hc hf hcv rfl
  simp only [mkReq] at hp ⊢
  simp only [specResolve] at hres hcomp ⊢
  simp [validate, hp, propAccess, getMember, getOwn, jsToString, indexOn, hres, hcomp,
    Js.isStringOrArray, bind, Except.bind, pure, Except.pure]

/-- C1: the claim states that for string/array data, `contains` with a numeric
`rule.field` checks positional equality (container at that index equals
`condition_value`) and the error flag is the negation of that check.  The code
contradicts it: the indexed evaluation at rules.ts:106-110 is unconditionally
overwritten by the index-free re-evaluation at rules.ts:120, so `contains`
always checks membership.  At the request
`{rule: {field: "1", condition: "contains", condition_value: "a"}, data: "abc"}`
the field parses as the number 1 and the positional check compares `"abc"[1]`
(that is `"b"`) with `"a"`, which is false, so the claim requires
`error: true`; the code returns `error: false` because `"abc"` includes
`"a"`. -/
theorem C1_contains_index_overwritten :
    parseIntJs "1" = some 1 ∧
    strictEq (optIndexNum (.str "abc") 1) (.str "a") = false ∧
    validate (mkReq "1" "contains" (.str "a") (.str "abc")) =
      .ok (.completed ⟨false, .str "1", .str "abc", .str "contains", .str "a"⟩) :=
  ⟨rfl, rfl, rfl⟩

/-- C2: the claim states that `validate` never throws and that in particular a
shape-valid request whose field resolves to a non-container value under the
`contains` condition yields a returned failure.  The code contradicts it: for
`{rule: {field: "a", condition: "contains", condition_value: "x"}, data: {a: 5}}`
the request passes shape validation, the field resolves to the number 5, and
`containsValidator` then evaluates `(5).includes("x")`, a TypeError that
escapes `validate`. -/
theorem C2_contains_noncontainer_throws :
    parseRequest (.obj [("rule", .obj [("field", .str "a"), ("condition", .str "contains"),
        ("condition_value", .str "x")]), ("data", .obj [("a", .num 5)])]) = .request ∧
    validate (.obj [("rule", .obj [("field", .str "a"), ("condition", .str "contains"),
        ("condition_value", .str "x")]), ("data", .obj [("a", .num 5)])]) =
      .error (.typeError "value.includes is not a function") :=
  ⟨rfl, rfl⟩

/-- C4 (counterexample): the claim says EVERY input whose `rule.condition` is
present but unregistered aborts with the enumeration `type_error`.  Joi
validates the rule's keys in order, so when `rule.field` is also missing the
earlier `rule.field is required` abort wins: at
`{rule: {condition: "bogus"}, data: "x"}` the outcome is
`missing_required_field`, not the claimed `type_error`. -/
theorem C4_counterexample_field_priority :
    validate (.obj [("rule", .obj [("condition", .str "bogus")]), ("data", .str "x")]) =
      .ok (.abort .missing_required_field "rule.field is required") ∧
    validate (.obj [("rule", .obj [("condition", .str "bogus")]), ("data", .str "x")]) ≠
      .ok (.abort .type_error "rule.condition must be one of eq, neq, gt, gte, or contains") := by
  refine ⟨rfl, ?_⟩
  intro h
  rw [show validate (.obj [("rule", .obj [("condition", .str "bogus")]), ("data", .str "x")]) =
    .ok (.abort .missing_required_field "rule.field is required") from rfl] at h
  injection h with h1
  injection h1 with h2 h3
  exact absurd h2 (by decide)

/-- C4 (amended): for every input whose earlier shape checks pass (top-level
object, rule an object, `rule.field` a nonempty string), a present
`rule.condition` outside `eq/neq/gt/gte/contains` aborts with `type_error` and
the exact message `rule.condition must be one of eq, neq, gt, gte, or
contains`. -/
theorem C4_invalid_condition_amended :
    ∀ (fields rfields : List (String × Js)) (f : String) (condv : Js),
    getOwn fields "rule" = .obj rfields →
    getOwn rfields "field" = .str f → f ≠ "" →
    getOwn rfields "condition" = condv →
    condv.isUndefined = false → conditionNameCheck condv = false →
    validate (.obj fields) =
      .ok (.abort .type_error "rule.condition must be one of eq, neq, gt, gte, or contains") := by
  intro fields rfields f condv h1 h2 hf h3 h4 h5
  have hf2 : (f == "") = false := by simp [hf]
  cases condv <;>
    simp_all [validate, parseRequest, validateRuleValue, Js.isStr, isEmptyStr]

/-- C4 (witness): the repository's own invalid-condition test case. -/
theorem C4_witness :
    validate (.obj [("rule", .obj [("field", .str "5"), ("condition", .str "invalid"),
        ("condition_value", .str "rocinante")]), ("data", .arr [.str "Tycho"])]) =
      .ok (.abort .type_error "rule.condition must be one of eq, neq, gt, gte, or contains") :=
  C4_invalid_condition_amended _ _ "5" (.str "invalid") rfl rfl (by decide) rfl rfl rfl

/-- C5: only the first applicable shape violation is reported, in the order
the claim lists: a missing `rule` wins over everything (including missing
`data`), a defect inside a present `rule` wins over `data` checks, and `data`
presence is checked only after the whole rule validates; in particular `{}`
yields `missing_required_field` with `rule is required.`. -/
theorem C5_first_violation_priority :
    validate (.obj []) = .ok (.abort .missing_required_field "rule is required.") ∧
    (∀ fields : List (String × Js), (getOwn fields "rule").isUndefined = true →
      validate (.obj fields) = .ok (.abort .missing_required_field "rule is required.")) ∧
    (∀ fields rfields : List (String × Js), getOwn fields "rule" = .obj rfields →
      (getOwn rfields "field").isUndefined = true →
      validate (.obj fields) = .ok (.abort .missing_required_field "rule.field is required")) ∧
    validate (.obj [("rule", .obj [("field", .str "length"), ("condition", .str "eq"),
      ("condition_value", .num 2)])]) =
        .ok (.abort .missing_required_field "data is required.") := by
  refine ⟨rfl, ?_, ?_, rfl⟩
  · intro fields h
    simp [validate, parseRequest, h]
  · intro fields rfields h1 h2
    simp [validate, parseRequest, h1, h2, validateRuleValue]

/-- C5 (witness): missing `rule` is reported even when `data` is present, and
a rule missing its `field` is reported before the `data` checks. -/
theorem C5_witness :
    validate (.obj [("data", .str "x")]) =
      .ok (.abort .missing_required_field "rule is required.") ∧
    validate (.obj [("rule", .obj []), ("data", .str "x")]) =
      .ok (.abort .missing_required_field "rule.field is required") :=
  ⟨C5_first_violation_priority.2.1 [("data", .str "x")] rfl,
   C5_first_violation_priority.2.2.1 [("rule", .obj []), ("data", .str "x")] [] rfl rfl⟩

/-- C7: the scenario
`{rule: {field: "0", condition: "eq", condition_value: "a"}, data: "damien-marley"}`
completes with `error: true` and `field_value` the whole string: for string
data the condition is evaluated against the container itself, not a resolved
character. -/
theorem C7_scenario_string_container :
    validate (mkReq "0" "eq" (.str "a") (.str "damien-marley")) =
      .ok (.completed ⟨true, .str "0", .str "damien-marley", .str "eq", .str "a"⟩) := rfl

/-- C8: `validate` is deterministic: two evaluations of the same input are
equal.  The force of the statement is that the embedding of rules.ts:96-131 is
a total state-free function, faithfully mirroring a source that touches no
global state and performs no I/O. -/
theorem C8_validate_deterministic :
    ∀ (req : Js) (r₁ r₂ : Except JsError ValidationResult),
    validate req = r₁ → validate req = r₂ → r₁ = r₂ := by
  intro req r₁ r₂ h₁ h₂
  rw [← h₁, ← h₂]

/-- C8 (witness): the two evaluations at the empty object coincide. -/
theorem C8_witness :
    (Except.ok (ValidationResult.abort .missing_required_field "rule is required.") :
      Except JsError ValidationResult) =
      .ok (.abort .missing_required_field "rule is required.") :=
  C8_validate_deterministic (.obj [])
    (.ok (.abort .missing_required_field "rule is required."))
    (.ok (.abort .missing_required_field "rule is required.")) rfl rfl

/-- C10: a dotted path resolving to the VALUE `null` does not count as
missing: for data `{a: null}` and field `a`, `validate` under each of `eq`,
`neq`, `gt`, `gte` returns a completed outcome with `field_value` null rather
than a `missing_data_field` abort. -/
theorem C10_null_field_completed :
    ∀ (c : String) (cv : Js),
    (c = "eq" ∨ c = "neq" ∨ c = "gt" ∨ c = "gte") → cv.isUndefined = false →
    ∃ b, validate (mkReq "a" c cv (.obj [("a", .null)])) =
      .ok (.completed ⟨b, .str "a", .null, .str c, cv⟩) := by
  intro c cv hc hcv
  have hres : (specResolve (.obj [("a", .null)]) (pathSegments "a")).isUndefined = false := rfl
  rcases hc with h | h | h | h <;> subst h
  · exact ⟨_, validate_mkReq_object_comp "a" "eq" cv [("a", .null)] _ rfl (by decide) hcv hres rfl⟩
  · exact ⟨_, validate_mkReq_object_comp "a" "neq" cv [("a", .null)] _ rfl (by decide) hcv hres rfl⟩
  · exact ⟨_, validate_mkReq_object_comp "a" "gt" cv [("a", .null)] _ rfl (by decide) hcv hres rfl⟩
  · exact ⟨_, validate_mkReq_object_comp "a" "gte" cv [("a", .null)] _ rfl (by decide) hcv hres rfl⟩

/-- C10 (witness): the `gte` comparison against 0 completes with `field_value`
null. -/
theorem C10_witness :
    ∃ b, validate (mkReq "a" "gte" (.num 0) (.obj [("a", .null)])) =
      .ok (.completed ⟨b, .str "a", .null, .str "gte", .num 0⟩) :=
  C10_null_field_completed "gte" (.num 0) (Or.inr (Or.inr (Or.inr rfl))) rfl
